import Mathlib

/-!
Verification of `uv-toolbox`: a shallow embedding in Lean 4 of the parts of
`src/uv_toolbox` that the specification's claims are about, together with
theorems settling each claim.

Strings from the Python source are modelled as `List Char`; machine-level
hashing uses `Nat` arithmetic with explicit reduction modulo `2 ^ 32`.
-/

namespace UvToolbox

/-! ## Python string primitives

`List Char` models a Python `str`.  `pyIsSpace` models the ASCII portion of
the whitespace class used by `str.strip` (the source only ever feeds it
requirement text, and the proofs below only rely on `'\n'` being whitespace
and `'#'` not being whitespace). -/

def pyIsSpace (c : Char) : Bool :=
  c = ' ' || c = '\t' || c = '\n' || c = '\r' || c = '\x0b' || c = '\x0c'

/-- Python `str.lstrip()`: drop the maximal whitespace prefix. -/
def lstrip (s : List Char) : List Char :=
  s.dropWhile pyIsSpace

/-- Python `str.rstrip()`: drop the maximal whitespace suffix. -/
def rstrip : List Char → List Char
  | [] => []
  | c :: rest =>
    match rstrip rest with
    | [] => if pyIsSpace c then [] else [c]
    | r => c :: r

/-- Python `str.strip()`: drop whitespace at both ends. -/
def strip (s : List Char) : List Char :=
  lstrip (rstrip s)

/-- Python `str.split('\n')`: split on every newline, keeping empty pieces;
the result is always non-empty. -/
def splitNl : List Char → List (List Char)
  | [] => [[]]
  | c :: rest =>
    if c = '\n' then [] :: splitNl rest
    else (c :: (splitNl rest).headD []) :: (splitNl rest).tail

/-- Python `'\n'.join(lines)`. -/
def joinNl (lines : List (List Char)) : List Char :=
  List.intercalate ['\n'] lines

/-- The filter used by `_normalize_requirements`:
`if line and not line.startswith('#')`. -/
def keepLine : List Char → Bool
  | [] => false
  | c :: _ => c ≠ '#'

/-- Lexicographic (code-point) comparison of two Python strings, the order
used by Python's `sorted`. -/
def lexLe : List Char → List Char → Bool
  | [], _ => true
  | _ :: _, [] => false
  | a :: as, b :: bs =>
    if a < b then true
    else if b < a then false
    else lexLe as bs

/-- Stable insertion used by `sortLines`. -/
def insertLine (x : List Char) : List (List Char) → List (List Char)
  | [] => [x]
  | y :: ys => if lexLe x y then x :: y :: ys else y :: insertLine x ys

/-- Python `sorted(lines)` for a list of strings (insertion sort; the order
is total and antisymmetric, so any sort agrees with Python's). -/
def sortLines : List (List Char) → List (List Char)
  | [] => []
  | x :: xs => insertLine x (sortLines xs)

/-! ## Requirement normalization

`_normalize_requirements` from `src/uv_toolbox/settings.py`:

```
lines = [line.strip() for line in req.strip().split('\n')]
lines = [line for line in lines if line and not line.startswith('#')]
return '\n'.join(sorted(lines))
```
-/

/-- The per-line processing shared by the code and the specification:
split on newlines, strip each line, keep non-empty non-comment lines. -/
def procLines (s : List Char) : List (List Char) :=
  ((splitNl s).map strip).filter keepLine

/-- `UvToolboxEnvironment._normalize_requirements`, translated from the
source (note the whole-string `strip` before splitting). -/
def normalizeRequirements (req : List Char) : List Char :=
  joinNl (sortLines (((splitNl (strip req)).map strip).filter keepLine))

/-- Modelled from the spec's words (§4.1): split into lines; strip each
line; discard empty and `#` lines; sort; rejoin.  Used only to compare
against `normalizeRequirements`, which is translated from the source. -/
def normalizeSpecification (req : List Char) : List Char :=
  joinNl (sortLines (((splitNl req).map strip).filter keepLine))

/-! ## UTF-8 encoding

Models Python's `str.encode()` on the normalized text: each code point is
encoded to its UTF-8 byte sequence. -/

def utf8EncodeChar (c : Char) : List Nat :=
  let n := c.toNat
  if n < 0x80 then [n]
  else if n < 0x800 then [0xc0 + n / 0x40, 0x80 + n % 0x40]
  else if n < 0x10000 then
    [0xe0 + n / 0x1000, 0x80 + n / 0x40 % 0x40, 0x80 + n % 0x40]
  else
    [0xf0 + n / 0x40000, 0x80 + n / 0x1000 % 0x40, 0x80 + n / 0x40 % 0x40,
      0x80 + n % 0x40]

def utf8Encode (s : List Char) : List Nat :=
  s.flatMap utf8EncodeChar

/-! ## SHA-256 (`hashlib.sha256(...).hexdigest()`)

A faithful executable model of SHA-256 over byte lists, with 32-bit words
represented as `Nat` reduced modulo `2 ^ 32`. -/

def M32 : Nat := 4294967296

def rotr (n w : Nat) : Nat :=
  (w / 2 ^ n + w % 2 ^ n * 2 ^ (32 - n)) % M32

def shr (n w : Nat) : Nat := w / 2 ^ n

def notW (w : Nat) : Nat := (M32 - 1) - w % M32

def bigSigma0 (x : Nat) : Nat := rotr 2 x ^^^ rotr 13 x ^^^ rotr 22 x

def bigSigma1 (x : Nat) : Nat := rotr 6 x ^^^ rotr 11 x ^^^ rotr 25 x

def smallSigma0 (x : Nat) : Nat := rotr 7 x ^^^ rotr 18 x ^^^ shr 3 x

def smallSigma1 (x : Nat) : Nat := rotr 17 x ^^^ rotr 19 x ^^^ shr 10 x

def chFn (e f g : Nat) : Nat := (e &&& f) ^^^ (notW e &&& g)

def majFn (a b c : Nat) : Nat := (a &&& b) ^^^ (a &&& c) ^^^ (b &&& c)

def sha256K : List Nat :=
  [1116352408, 1899447441, 3049323471, 3921009573, 961987163,
   1508970993, 2453635748, 2870763221, 3624381080, 310598401,
   607225278, 1426881987, 1925078388, 2162078206, 2614888103,
   3248222580, 3835390401, 4022224774, 264347078, 604807628,
   770255983, 1249150122, 1555081692, 1996064986, 2554220882,
   2821834349, 2952996808, 3210313671, 3336571891, 3584528711,
   113926993, 338241895, 666307205, 773529912, 1294757372,
   1396182291, 1695183700, 1986661051, 2177026350, 2456956037,
   2730485921, 2820302411, 3259730800, 3345764771, 3516065817,
   3600352804, 4094571909, 275423344, 430227734, 506948616,
   659060556, 883997877, 958139571, 1322822218, 1537002063,
   1747873779, 1955562222, 2024104815, 2227730452, 2361852424,
   2428436474, 2756734187, 3204031479, 3329325298]

/-- The eight working variables / hash words of the compression function. -/
structure Hash8 where
  a : Nat
  b : Nat
  c : Nat
  d : Nat
  e : Nat
  f : Nat
  g : Nat
  h : Nat
  deriving Repr, DecidableEq

def sha256H0 : Hash8 :=
  ⟨1779033703, 3144134277, 1013904242, 2773480762,
   1359893119, 2600822924, 528734635, 1541459225⟩

/-- Big-endian 8-byte encoding of the bit length, for the padding block. -/
def lenBytes (n : Nat) : List Nat :=
  [n / 2 ^ 56 % 256, n / 2 ^ 48 % 256, n / 2 ^ 40 % 256, n / 2 ^ 32 % 256,
   n / 2 ^ 24 % 256, n / 2 ^ 16 % 256, n / 2 ^ 8 % 256, n % 256]

/-- SHA-256 padding: append `0x80`, zero bytes up to 56 mod 64, then the
64-bit big-endian message bit length. -/
def sha256Pad (msg : List Nat) : List Nat :=
  let L := msg.length
  msg ++ 0x80 :: List.replicate ((64 + 55 - L % 64) % 64) 0 ++ lenBytes (L * 8)

/-- Group four big-endian bytes into one 32-bit word. -/
def bytesToWords : List Nat → List Nat
  | b0 :: b1 :: b2 :: b3 :: rest =>
    (b0 * 2 ^ 24 + b1 * 2 ^ 16 + b2 * 2 ^ 8 + b3) :: bytesToWords rest
  | _ => []

/-- Extend the 16 chunk words to the 64-entry message schedule; the list is
kept most-recent-first. -/
def scheduleRev : Nat → List Nat → List Nat
  | 0, rws => rws
  | k + 1, rws =>
    scheduleRev k
      (((rws.getD 15 0 + smallSigma0 (rws.getD 14 0) + rws.getD 6 0 +
          smallSigma1 (rws.getD 1 0)) % M32) :: rws)

def schedule (w16 : List Nat) : List Nat :=
  (scheduleRev 48 w16.reverse).reverse

/-- One round of the compression function. -/
def roundStep (st : Hash8) (kw : Nat × Nat) : Hash8 :=
  let t1 := (st.h + bigSigma1 st.e + chFn st.e st.f st.g + kw.1 + kw.2) % M32
  let t2 := (bigSigma0 st.a + majFn st.a st.b st.c) % M32
  ⟨(t1 + t2) % M32, st.a, st.b, st.c, (st.d + t1) % M32, st.e, st.f, st.g⟩

/-- Process one 64-byte chunk. -/
def compressChunk (H : Hash8) (chunk : List Nat) : Hash8 :=
  let st := (sha256K.zip (schedule (bytesToWords chunk))).foldl roundStep H
  ⟨(H.a + st.a) % M32, (H.b + st.b) % M32, (H.c + st.c) % M32,
   (H.d + st.d) % M32, (H.e + st.e) % M32, (H.f + st.f) % M32,
   (H.g + st.g) % M32, (H.h + st.h) % M32⟩

/-- Split a byte list into 64-byte chunks (structural recursion on a fuel
counter so that the kernel can evaluate it; each step consumes at least
one byte, so `l.length` steps always suffice). -/
def toChunksAux : Nat → List Nat → List (List Nat)
  | 0, _ => []
  | _, [] => []
  | fuel + 1, x :: rest => ((x :: rest).take 64) :: toChunksAux fuel (rest.drop 63)

/-- Split the padded message into 64-byte chunks. -/
def toChunks (l : List Nat) : List (List Nat) :=
  toChunksAux l.length l

/-- Big-endian byte decomposition of a 32-bit word. -/
def wordToBytes (w : Nat) : List Nat :=
  [w / 2 ^ 24 % 256, w / 2 ^ 16 % 256, w / 2 ^ 8 % 256, w % 256]

/-- The SHA-256 digest (32 bytes) of a byte list. -/
def sha256 (msg : List Nat) : List Nat :=
  let Hf := (toChunks (sha256Pad msg)).foldl compressChunk sha256H0
  wordToBytes Hf.a ++ wordToBytes Hf.b ++ wordToBytes Hf.c ++ wordToBytes Hf.d ++
    wordToBytes Hf.e ++ wordToBytes Hf.f ++ wordToBytes Hf.g ++ wordToBytes Hf.h

/-- A lowercase hexadecimal digit character. -/
def hexDigit (n : Nat) : Char :=
  Char.ofNat (if n < 10 then 48 + n else 87 + n)

/-- `hexdigest()`: two lowercase hex characters per byte. -/
def hexDigest (bytes : List Nat) : List Char :=
  bytes.flatMap fun b => [hexDigit (b / 16), hexDigit (b % 16)]

/-! ## Paths

A `pathlib.Path` is modelled as an absolute/relative flag plus components.
`pathJoin` models `p / q` and `parentPath` models `p.parent`. -/

structure PyPath where
  absolute : Bool
  parts : List String
  deriving Repr, DecidableEq

def pathJoin (p q : PyPath) : PyPath :=
  if q.absolute then q else ⟨p.absolute, p.parts ++ q.parts⟩

def parentPath (p : PyPath) : PyPath :=
  ⟨p.absolute, p.parts.dropLast⟩

def pathStr (p : PyPath) : String :=
  (if p.absolute then "/" else "") ++ String.intercalate "/" p.parts

/-- Python truthiness of an optional string (`None` and `''` are falsy),
as used by `env_name or self.default_environment` and
`cli_args.get('config_file') or os.getenv(...)`. -/
def truthyStr : Option String → Bool
  | none => false
  | some s => s ≠ ""

/-! ## The environment and settings models
(`src/uv_toolbox/settings.py`) -/

structure UvToolboxEnvironment where
  name : String
  requirements : Option String := none
  requirements_file : Option PyPath := none
  environment : List (String × String) := []
  deriving Repr, DecidableEq

/-- The declared fields of the `UvToolboxEnvironment` pydantic model
(settings.py lines 75–78); unknown constructor keywords are ignored by the
model and are not fields. -/
def uvToolboxEnvironmentFields : List String :=
  ["name", "requirements", "requirements_file", "environment"]

/-- The attributes of an environment read by
`_create_shims_for_environment` beyond its declared helpers
(`env.executables` at shims.py lines 162 and 176, `env.venv_path`). -/
def shimGeneratorEnvironmentAttrs : List String :=
  ["venv_path", "executables"]

/-- The `check_requirements` validator:
`bool(self.requirements) ^ bool(self.requirements_file)` must be true
(`bool` of a `Path` object is always `True`, so only `None` is falsy
there, while the empty string is falsy for `requirements`). -/
def checkRequirements (requirements : Option String)
    (requirements_file : Option PyPath) : Bool :=
  xor (truthyStr requirements) requirements_file.isSome

/-- The hash computation shared by both branches of
`_get_requirements_hash`:
`hashlib.sha256(normalized.encode()).hexdigest()[:12]`. -/
def contentIdentifier (text : String) : List Char :=
  (hexDigest (sha256 (utf8Encode (normalizeRequirements text.data)))).take 12

/-- `UvToolboxEnvironment._get_requirements_hash`; `readText` models
`Path.read_text` and `none` models the (unreachable) `ValueError`. -/
def getRequirementsHash (readText : PyPath → String)
    (env : UvToolboxEnvironment) : Option (List Char) :=
  if truthyStr env.requirements then
    env.requirements.map contentIdentifier
  else
    env.requirements_file.map fun p => contentIdentifier (readText p)

structure UvToolboxSettings where
  config_file : Option PyPath := none
  venv_path : PyPath
  default_environment : Option String := none
  show_commands : Bool := false
  environments : List UvToolboxEnvironment
  deriving Repr, DecidableEq

/-- `UvToolboxSettings.resolved_venv_path`; `cwd` models `Path.cwd()`,
used only in the defensive `config_file is None` branch. -/
def resolvedVenvPath (s : UvToolboxSettings) (cwd : PyPath) : PyPath :=
  if s.venv_path.absolute then s.venv_path
  else
    match s.config_file with
    | none => pathJoin cwd s.venv_path
    | some cf => pathJoin (parentPath cf) s.venv_path

/-- `UvToolboxEnvironment.venv_path`:
`settings.resolved_venv_path / req_hash`. -/
def envVenvPath (readText : PyPath → String) (env : UvToolboxEnvironment)
    (s : UvToolboxSettings) (cwd : PyPath) : Option PyPath :=
  (getRequirementsHash readText env).map fun h =>
    pathJoin (resolvedVenvPath s cwd) ⟨false, [String.mk h]⟩

inductive SelectError where
  | environmentNotFound (envName : String) (available : List String)
  | multipleEnvironments (available : List String)
  deriving Repr, DecidableEq

/-- `UvToolboxSettings.select_environment`.  The first line of the source
is `env_name = env_name or self.default_environment` (Python truthiness:
an empty string also falls through to the default). -/
def selectEnvironment (s : UvToolboxSettings) (envName : Option String) :
    Except SelectError UvToolboxEnvironment :=
  let en := if truthyStr envName then envName else s.default_environment
  match en with
  | some n =>
    match s.environments.find? (fun e => e.name = n) with
    | some e => .ok e
    | none => .error (.environmentNotFound n (s.environments.map (·.name)))
  | none =>
    match s.environments with
    | [e] => .ok e
    | es => .error (.multipleEnvironments (es.map (·.name)))

/-! ## Config discovery (`_pyproject_has_uv_toolbox_config`,
`_check_directory_for_config`, `_find_config_file`, `_verify_config_file`) -/

/-- A parsed TOML value (only the table/non-table distinction matters to
the source's `isinstance(..., dict)` checks). -/
inductive TomlVal where
  | table (entries : List (String × TomlVal))
  | scalar (s : String)

/-- A filesystem entry: `absent` (`exists()` is false), a directory, or a
regular file whose `tomllib.loads(read_text())` result is `some` document
(`none` models an `OSError` or `TOMLDecodeError`). -/
inductive FsEntry where
  | absent
  | directory
  | file (parsedToml : Option (List (String × TomlVal)))

def entryExists : FsEntry → Bool
  | .absent => false
  | _ => true

/-- `_pyproject_has_uv_toolbox_config`: the path must be a regular file,
parse, and hold a `tool` mapping containing a `uv-toolbox` mapping. -/
def pyprojectHasUvToolboxConfig (entry : FsEntry) : Bool :=
  match entry with
  | .file (some doc) =>
    match doc.lookup "tool" with
    | some (.table toolTable) =>
      match toolTable.lookup "uv-toolbox" with
      | some (.table _) => true
      | _ => false
    | _ => false
  | _ => false

/-- One directory on the upward walk: its path, the filesystem entries at
the four candidate config names inside it, and whether `<dir>/.git`
exists. -/
structure DirFS where
  path : PyPath
  yamlEntry : FsEntry
  jsonEntry : FsEntry
  tomlEntry : FsEntry
  pyprojectEntry : FsEntry
  hasGit : Bool

def candidatePath (d : DirFS) (name : String) : PyPath :=
  pathJoin d.path ⟨false, [name]⟩

/-- `_check_directory_for_config`: the three dedicated names are accepted
whenever `exists()` is true; `pyproject.toml` additionally needs the
`[tool.uv-toolbox]` mapping. -/
def checkDirectoryForConfig (d : DirFS) : Option PyPath :=
  if entryExists d.yamlEntry then some (candidatePath d "uv-toolbox.yaml")
  else if entryExists d.jsonEntry then some (candidatePath d "uv-toolbox.json")
  else if entryExists d.tomlEntry then some (candidatePath d "uv-toolbox.toml")
  else if entryExists d.pyprojectEntry && pyprojectHasUvToolboxConfig d.pyprojectEntry then
    some (candidatePath d "pyproject.toml")
  else none

/-- `_find_config_file`: `dirs` is `[current, *current.parents]`; check
each directory, stop with the first hit, and stop (empty-handed) after
checking a directory that contains `.git`. -/
def findConfigFile (dirs : List DirFS) : Option PyPath :=
  match dirs with
  | [] => none
  | d :: rest =>
    match checkDirectoryForConfig d with
    | some p => some p
    | none => if d.hasGit then none else findConfigFile rest

/-! ## Error classes for config verification

`_verify_config_file` (settings.py lines 412–447) raises
`ConfigFileNotFoundError` for a missing override path and
`MissingConfigFileError` when the upward walk finds nothing, and
settings.py lines 31–36 imports both from `uv_toolbox.errors` — but the
staged `errors.py` never defines them. -/

/-- The exception classes actually defined in `src/uv_toolbox/errors.py`. -/
def errorsModuleClasses : List String :=
  ["UvToolboxError", "MissingCliError", "ExternalCommandError",
   "EnvironmentNotFoundError", "MultipleEnvironmentsError",
   "CommandDelimiterRequiredError"]

/-- The names `settings.py` imports from `uv_toolbox.errors`
(lines 31–36). -/
def settingsErrorImports : List String :=
  ["ConfigFileNotFoundError", "EnvironmentNotFoundError",
   "MissingConfigFileError", "MultipleEnvironmentsError"]

/-! ## `install_requirements` (`src/uv_toolbox/uv_helpers.py`) -/

/-- The observable effects of one `install_requirements` call. -/
structure InstallTrace where
  /-- Arguments passed to `run_checked` (`none` if it is never reached). -/
  cmdArgs : Option (List String)
  /-- The temporary requirements file written, if any. -/
  tempPath : Option String
  /-- Contents written to the temporary file. -/
  tempContent : Option String
  /-- Whether the call terminated by raising. -/
  raised : Bool
  /-- Whether `shutil.rmtree(temp_dir)` executed. -/
  tempRemoved : Bool
  deriving Repr, DecidableEq

/-- `install_requirements`: `tempDir` models `tempfile.mkdtemp()` and
`runFails` models `run_checked` raising.  The `shutil.rmtree` call is the
last statement of the function body with no `try`/`finally`, so it only
runs when `run_checked` returns normally. -/
def installRequirements (env : UvToolboxEnvironment) (tempDir : String)
    (runFails : Bool) : InstallTrace :=
  match env.requirements_file with
  | some rf =>
    { cmdArgs := some ["uv", "pip", "install", "-r", pathStr rf, "--exact"],
      tempPath := none, tempContent := none,
      raised := runFails, tempRemoved := false }
  | none =>
    match env.requirements with
    | some r =>
      let tmp := tempDir ++ "/requirements_" ++ env.name ++ ".txt"
      { cmdArgs := some ["uv", "pip", "install", "-r", tmp, "--exact"],
        tempPath := some tmp, tempContent := some r,
        raised := runFails, tempRemoved := !runFails }
    | none =>
      -- `reqs_arg` is unbound: `if reqs_arg` raises before any install
      { cmdArgs := none, tempPath := none, tempContent := none,
        raised := true, tempRemoved := false }

/-- The text whose normalization feeds `_get_requirements_hash`: the
inline `requirements` when truthy, otherwise the contents of
`requirements_file`. -/
def effectiveRequirementText (readText : PyPath → String)
    (env : UvToolboxEnvironment) : Option String :=
  if truthyStr env.requirements then env.requirements
  else env.requirements_file.map readText

/-! ## Concrete fixtures for witnesses and counterexamples -/

def readTextEmpty : PyPath → String := fun _ => ""

def envLint : UvToolboxEnvironment :=
  { name := "lint", requirements := some "ruff" }

def envFmt : UvToolboxEnvironment :=
  { name := "fmt", requirements := some "ruff" }

/-- The claim C2 example scenario: `venv_path: .uv-toolbox`, two
environments both declaring `requirements: ruff`. -/
def settingsTwoRuff : UvToolboxSettings :=
  { config_file := some ⟨true, ["proj", "uv-toolbox.yaml"]⟩,
    venv_path := ⟨false, [".uv-toolbox"]⟩,
    environments := [envLint, envFmt] }

/-- A settings value with no `config_file` (reachable through direct
`model_validate`, as the source's own comment notes). -/
def settingsNoConfigFile : UvToolboxSettings :=
  { config_file := none,
    venv_path := ⟨false, [".uv-toolbox"]⟩,
    environments := [envLint] }

def envEmptyName : UvToolboxEnvironment :=
  { name := "", requirements := some "ruff" }

def envNamedB : UvToolboxEnvironment :=
  { name := "b", requirements := some "black" }

/-- Two environments, one of them named by the empty string, no default. -/
def settingsEmptyName : UvToolboxSettings :=
  { venv_path := ⟨false, [".uv-toolbox"]⟩,
    environments := [envEmptyName, envNamedB] }

/-- A directory whose `uv-toolbox.yaml` entry is itself a directory. -/
def dirYamlIsDirectory : DirFS :=
  { path := ⟨true, ["repo"]⟩, yamlEntry := .directory, jsonEntry := .absent,
    tomlEntry := .absent, pyprojectEntry := .absent, hasGit := false }

def dirEmptyNoGit : DirFS :=
  { path := ⟨true, ["repo", "sub"]⟩, yamlEntry := .absent, jsonEntry := .absent,
    tomlEntry := .absent, pyprojectEntry := .absent, hasGit := false }

def dirWithYaml : DirFS :=
  { path := ⟨true, ["repo"]⟩, yamlEntry := .file none, jsonEntry := .absent,
    tomlEntry := .absent, pyprojectEntry := .absent, hasGit := true }

def dirGitOnly : DirFS :=
  { path := ⟨true, ["repo"]⟩, yamlEntry := .absent, jsonEntry := .absent,
    tomlEntry := .absent, pyprojectEntry := .absent, hasGit := true }

/-- A `pyproject.toml` containing only `[tool.other]`. -/
def dirPyprojectOtherTool : DirFS :=
  { path := ⟨true, ["repo"]⟩, yamlEntry := .absent, jsonEntry := .absent,
    tomlEntry := .absent,
    pyprojectEntry := .file (some [("tool", .table [("other", .table [])])]),
    hasGit := false }

/-! ### The normalization functions agree -/

theorem splitNl_ne_nil (s : List Char) : splitNl s ≠ [] := by
  cases s with
  | nil => simp [splitNl]
  | cons c rest =>
    simp only [splitNl]
    split <;> simp

theorem headD_cons_tail {α : Type} (l : List α) (d : α) (h : l ≠ []) :
    l.headD d :: l.tail = l := by
  cases l with
  | nil => exact absurd rfl h
  | cons x xs => rfl

theorem lstrip_nil : lstrip [] = [] := rfl

theorem lstrip_cons_of_space {c : Char} (h : pyIsSpace c = true) (l : List Char) :
    lstrip (c :: l) = lstrip l := by
  simp [lstrip, List.dropWhile, h]

theorem lstrip_cons_of_not_space {c : Char} (h : pyIsSpace c = false) (l : List Char) :
    lstrip (c :: l) = c :: l := by
  simp [lstrip, List.dropWhile, h]

theorem rstrip_nil : rstrip [] = [] := rfl

theorem strip_nil : strip [] = [] := rfl

theorem nl_isSpace : pyIsSpace '\n' = true := by decide

/-- `strip` absorbs a leading whitespace character. -/
theorem strip_cons_of_space {c : Char} (h : pyIsSpace c = true) (l : List Char) :
    strip (c :: l) = strip l := by
  unfold strip
  show lstrip (rstrip (c :: l)) = lstrip (rstrip l)
  rw [rstrip]
  cases hr : rstrip l with
  | nil => simp [h, lstrip]
  | cons r rs => rw [lstrip_cons_of_space h]

theorem strip_cons_of_not_space {c : Char} (h : pyIsSpace c = false) (l : List Char) :
    strip (c :: l) = c :: rstrip l := by
  unfold strip
  rw [rstrip]
  cases hr : rstrip l with
  | nil => simp [h, lstrip, List.dropWhile]
  | cons r rs => rw [lstrip_cons_of_not_space h]

/-- If every character of `l` is whitespace then `rstrip l = []`. -/
theorem rstrip_eq_nil_of_allWs {l : List Char}
    (h : ∀ c ∈ l, pyIsSpace c = true) : rstrip l = [] := by
  induction l with
  | nil => rfl
  | cons c rest ih =>
    have hc : pyIsSpace c = true := h c (List.mem_cons_self c rest)
    have hrest : rstrip rest = [] := ih fun x hx => h x (List.mem_cons_of_mem c hx)
    rw [rstrip, hrest]
    simp [hc]

theorem strip_eq_nil_of_allWs {l : List Char}
    (h : ∀ c ∈ l, pyIsSpace c = true) : strip l = [] := by
  unfold strip
  rw [rstrip_eq_nil_of_allWs h]
  rfl

/-- `rstrip` absorbs an all-whitespace suffix. -/
theorem rstrip_append_ws {w : List Char} (hw : ∀ c ∈ w, pyIsSpace c = true)
    (x : List Char) : rstrip (x ++ w) = rstrip x := by
  induction x with
  | nil => simpa using rstrip_eq_nil_of_allWs hw
  | cons c x' ih =>
    show rstrip (c :: (x' ++ w)) = rstrip (c :: x')
    rw [rstrip, rstrip, ih]

theorem strip_append_ws {w : List Char} (hw : ∀ c ∈ w, pyIsSpace c = true)
    (x : List Char) : strip (x ++ w) = strip x := by
  unfold strip
  rw [rstrip_append_ws hw]

/-- Every string splits as its `rstrip` followed by an all-whitespace tail. -/
theorem rstrip_decomp (s : List Char) :
    ∃ w, s = rstrip s ++ w ∧ ∀ c ∈ w, pyIsSpace c = true := by
  induction s with
  | nil => exact ⟨[], rfl, by simp⟩
  | cons c rest ih =>
    obtain ⟨w, hw, hws⟩ := ih
    cases hr : rstrip rest with
    | nil =>
      have hrw : rest = w := by rw [hw, hr]; rfl
      by_cases hc : pyIsSpace c = true
      · refine ⟨c :: rest, ?_, ?_⟩
        · rw [rstrip, hr]
          simp [hc]
        · intro x hx
          rcases List.mem_cons.mp hx with h | h
          · exact h ▸ hc
          · exact hws x (hrw ▸ h)
      · have hc' : pyIsSpace c = false := by simpa using hc
        refine ⟨w, ?_, hws⟩
        rw [rstrip, hr]
        simp [hc', hrw]
    | cons r rs =>
      refine ⟨w, ?_, hws⟩
      rw [rstrip, hr]
      have : rest = (r :: rs) ++ w := by rw [hw, hr]
      simp [this]

theorem splitNl_cons_nl (s : List Char) : splitNl ('\n' :: s) = [] :: splitNl s := by
  simp [splitNl]

theorem splitNl_cons_of_ne {c : Char} (hc : c ≠ '\n') (s : List Char) :
    splitNl (c :: s) = (c :: (splitNl s).headD []) :: (splitNl s).tail := by
  simp [splitNl, hc]

theorem headD_mem {α : Type} {l : List α} (d : α) (h : l ≠ []) : l.headD d ∈ l := by
  cases l with
  | nil => exact absurd rfl h
  | cons x xs => exact List.mem_cons_self x xs

theorem mem_of_mem_tail {α : Type} {l : List α} {x : α} (h : x ∈ l.tail) : x ∈ l := by
  cases l with
  | nil => simp at h
  | cons y ys => exact List.mem_cons_of_mem y h

/-- Splitting a concatenation: the first factor's last line fuses with the
second factor's first line. -/
theorem splitNl_append (u v : List Char) :
    ∃ init last, splitNl u = init ++ [last] ∧
      splitNl (u ++ v) = init ++ (last ++ (splitNl v).headD []) :: (splitNl v).tail := by
  induction u with
  | nil =>
    refine ⟨[], [], rfl, ?_⟩
    show splitNl v = (splitNl v).headD [] :: (splitNl v).tail
    exact (headD_cons_tail _ _ (splitNl_ne_nil v)).symm
  | cons c u' ih =>
    obtain ⟨init, last, h1, h2⟩ := ih
    by_cases hc : c = '\n'
    · subst hc
      refine ⟨[] :: init, last, ?_, ?_⟩
      · rw [splitNl_cons_nl, h1]
        rfl
      · show splitNl ('\n' :: (u' ++ v)) = _
        rw [splitNl_cons_nl, h2]
        rfl
    · cases init with
      | nil =>
        refine ⟨[], c :: last, ?_, ?_⟩
        · rw [splitNl_cons_of_ne hc, h1]
          rfl
        · show splitNl (c :: (u' ++ v)) = _
          rw [splitNl_cons_of_ne hc, h2]
          simp
      | cons i0 irest =>
        refine ⟨(c :: i0) :: irest, last, ?_, ?_⟩
        · rw [splitNl_cons_of_ne hc, h1]
          rfl
        · show splitNl (c :: (u' ++ v)) = _
          rw [splitNl_cons_of_ne hc, h2]
          rfl

/-- Every character of every line produced by `splitNl` comes from the
original string. -/
theorem mem_splitNl_subset :
    ∀ (s : List Char), ∀ l ∈ splitNl s, ∀ a ∈ l, a ∈ s := by
  intro s
  induction s with
  | nil =>
    intro l hl a ha
    simp [splitNl] at hl
    subst hl
    simp at ha
  | cons c rest ih =>
    intro l hl a ha
    by_cases hc : c = '\n'
    · subst hc
      rw [splitNl_cons_nl] at hl
      rcases List.mem_cons.mp hl with h | h
      · subst h; simp at ha
      · exact List.mem_cons_of_mem _ (ih l h a ha)
    · rw [splitNl_cons_of_ne hc] at hl
      rcases List.mem_cons.mp hl with h | h
      · subst h
        rcases List.mem_cons.mp ha with h' | h'
        · exact h' ▸ List.mem_cons_self c rest
        · exact List.mem_cons_of_mem _
            (ih _ (headD_mem [] (splitNl_ne_nil rest)) a h')
      · exact List.mem_cons_of_mem _ (ih l (mem_of_mem_tail h) a ha)

/-- Lines that strip to nothing are dropped entirely by the keep-filter. -/
theorem filter_keep_strip_allWs {L : List (List Char)}
    (h : ∀ l ∈ L, ∀ a ∈ l, pyIsSpace a = true) :
    (L.map strip).filter keepLine = [] := by
  induction L with
  | nil => rfl
  | cons l L' ih =>
    have h1 : strip l = [] := strip_eq_nil_of_allWs (h l (List.mem_cons_self l L'))
    have h2 := ih fun x hx => h x (List.mem_cons_of_mem l hx)
    simp [h1, h2, keepLine]

/-- Appending an all-whitespace suffix does not change the processed lines. -/
theorem procLines_append_ws {w : List Char} (hw : ∀ c ∈ w, pyIsSpace c = true)
    (u : List Char) : procLines (u ++ w) = procLines u := by
  obtain ⟨init, last, h1, h2⟩ := splitNl_append u w
  have hwlines : ∀ l ∈ splitNl w, ∀ a ∈ l, pyIsSpace a = true :=
    fun l hl a ha => hw a (mem_splitNl_subset w l hl a ha)
  have hhead : ∀ a ∈ (splitNl w).headD [], pyIsSpace a = true :=
    hwlines _ (headD_mem [] (splitNl_ne_nil w))
  have htail : ((splitNl w).tail.map strip).filter keepLine = [] :=
    filter_keep_strip_allWs fun l hl => hwlines l (mem_of_mem_tail hl)
  have key : List.filter keepLine
        (strip (last ++ (splitNl w).headD []) :: List.map strip (splitNl w).tail)
      = List.filter keepLine [strip last] := by
    rw [strip_append_ws hhead last, List.filter_cons, htail, List.filter_cons,
      List.filter_nil]
  unfold procLines
  rw [h1, h2]
  calc List.filter keepLine
        (List.map strip (init ++ (last ++ (splitNl w).headD []) :: (splitNl w).tail))
      = List.filter keepLine (List.map strip init) ++
          List.filter keepLine
            (strip (last ++ (splitNl w).headD []) :: List.map strip (splitNl w).tail) := by
        rw [List.map_append, List.map_cons, List.filter_append]
    _ = List.filter keepLine (List.map strip init) ++ List.filter keepLine [strip last] := by
        rw [key]
    _ = List.filter keepLine (List.map strip (init ++ [last])) := by
        rw [List.map_append, List.filter_append, List.map_cons, List.map_nil]

/-- A leading whitespace character does not change the processed lines. -/
theorem procLines_cons_ws {c : Char} (hc : pyIsSpace c = true) (s : List Char) :
    procLines (c :: s) = procLines s := by
  by_cases hnl : c = '\n'
  · subst hnl
    unfold procLines
    rw [splitNl_cons_nl]
    simp [strip_nil, keepLine]
  · unfold procLines
    rw [splitNl_cons_of_ne hnl]
    have hrec := headD_cons_tail (splitNl s) [] (splitNl_ne_nil s)
    calc (((c :: (splitNl s).headD []) :: (splitNl s).tail).map strip).filter keepLine
        = ((((splitNl s).headD [] :: (splitNl s).tail)).map strip).filter keepLine := by
          simp only [List.map_cons, strip_cons_of_space hc]
      _ = ((splitNl s).map strip).filter keepLine := by rw [hrec]

/-- Stripping leading whitespace does not change the processed lines. -/
theorem procLines_lstrip (s : List Char) : procLines (lstrip s) = procLines s := by
  induction s with
  | nil => rfl
  | cons c rest ih =>
    cases hc : pyIsSpace c with
    | true => rw [lstrip_cons_of_space hc, ih, procLines_cons_ws hc]
    | false => rw [lstrip_cons_of_not_space hc]

/-- Stripping trailing whitespace does not change the processed lines. -/
theorem procLines_rstrip (s : List Char) : procLines (rstrip s) = procLines s := by
  obtain ⟨w, hw, hws⟩ := rstrip_decomp s
  conv_rhs => rw [hw]
  exact (procLines_append_ws hws (rstrip s)).symm

/-- The whole-string `strip` performed by `_normalize_requirements` before
splitting does not change the processed lines. -/
theorem procLines_strip (s : List Char) : procLines (strip s) = procLines s := by
  unfold strip
  rw [procLines_lstrip, procLines_rstrip]

/-- The source's normalization (which strips the whole string first) agrees
with the specification's normalization (which only strips per line). -/
theorem normalizeRequirements_eq_specification (req : List Char) :
    normalizeRequirements req = normalizeSpecification req := by
  unfold normalizeRequirements normalizeSpecification
  have h := procLines_strip req
  unfold procLines at h
  rw [h]

/-! ### Shape of the digest -/

theorem wordToBytes_length (w : Nat) : (wordToBytes w).length = 4 := rfl

theorem wordToBytes_lt (w : Nat) : ∀ b ∈ wordToBytes w, b < 256 := by
  intro b hb
  simp [wordToBytes] at hb
  rcases hb with rfl | rfl | rfl | rfl <;> omega

theorem sha256_length (msg : List Nat) : (sha256 msg).length = 32 := by
  unfold sha256
  simp [wordToBytes]

theorem sha256_mem_lt (msg : List Nat) : ∀ b ∈ sha256 msg, b < 256 := by
  intro b hb
  unfold sha256 at hb
  simp only [List.mem_append] at hb
  rcases hb with ((((((h | h) | h) | h) | h) | h) | h) | h <;>
    exact wordToBytes_lt _ b h

theorem hexDigest_length (bytes : List Nat) :
    (hexDigest bytes).length = 2 * bytes.length := by
  induction bytes with
  | nil => rfl
  | cons b bs ih =>
    unfold hexDigest at *
    rw [List.flatMap_cons, List.length_append, ih]
    simp
    omega

theorem hexDigit_is_hex : ∀ n, n < 16 →
    ('0' ≤ hexDigit n ∧ hexDigit n ≤ '9') ∨
      ('a' ≤ hexDigit n ∧ hexDigit n ≤ 'f') := by
  decide

theorem mem_hexDigest_is_hex {bytes : List Nat} (hb : ∀ b ∈ bytes, b < 256) :
    ∀ c ∈ hexDigest bytes,
      ('0' ≤ c ∧ c ≤ '9') ∨ ('a' ≤ c ∧ c ≤ 'f') := by
  intro c hc
  unfold hexDigest at hc
  rw [List.mem_flatMap] at hc
  obtain ⟨b, hbmem, hcmem⟩ := hc
  have hblt : b < 256 := hb b hbmem
  rcases List.mem_cons.mp hcmem with h | h
  · subst h
    exact hexDigit_is_hex (b / 16) (by omega)
  · rcases List.mem_cons.mp h with h' | h'
    · subst h'
      exact hexDigit_is_hex (b % 16) (Nat.mod_lt b (by norm_num))
    · simp at h'

/-! ## Claims -/

/-- C1: the content identifier equals the first 12 characters of the
lowercase hex SHA-256 digest of the UTF-8 encoding of the normalized
requirement text, where normalization follows the spec's description
(split into lines, strip each line, discard empty and `#` lines, sort,
rejoin); the identifier is always exactly 12 lowercase hexadecimal
characters, and it is deterministic in the requirement text. -/
theorem C1_content_identifier (r : String) :
    contentIdentifier r =
        (hexDigest (sha256 (utf8Encode (normalizeSpecification r.data)))).take 12
    ∧ (contentIdentifier r).length = 12
    ∧ (∀ c ∈ contentIdentifier r,
        ('0' ≤ c ∧ c ≤ '9') ∨ ('a' ≤ c ∧ c ≤ 'f'))
    ∧ (∀ r' : String, r = r' → contentIdentifier r = contentIdentifier r') := by
  refine ⟨?_, ?_, ?_, ?_⟩
  · unfold contentIdentifier
    rw [normalizeRequirements_eq_specification]
  · unfold contentIdentifier
    rw [List.length_take, hexDigest_length, sha256_length]
    norm_num
  · intro c hc
    have hsub : c ∈ hexDigest (sha256 (utf8Encode (normalizeRequirements r.data))) :=
      List.take_subset 12 _ hc
    exact mem_hexDigest_is_hex (sha256_mem_lt _) c hsub
  · intro r' h
    rw [h]

theorem getRequirementsHash_eq_effective (readText : PyPath → String)
    (env : UvToolboxEnvironment) :
    getRequirementsHash readText env =
      (effectiveRequirementText readText env).map contentIdentifier := by
  unfold getRequirementsHash effectiveRequirementText
  cases h : truthyStr env.requirements <;>
    simp [h, Option.map_map, Function.comp_def]

/-- C2: two environments of the same settings whose requirement texts have
equal normalized forms get equal computed venv paths, regardless of their
names. -/
theorem C2_equal_requirements_equal_venv_path (readText : PyPath → String)
    (s : UvToolboxSettings) (cwd : PyPath) (e₁ e₂ : UvToolboxEnvironment)
    (t₁ t₂ : String)
    (_hm₁ : e₁ ∈ s.environments) (_hm₂ : e₂ ∈ s.environments)
    (h₁ : effectiveRequirementText readText e₁ = some t₁)
    (h₂ : effectiveRequirementText readText e₂ = some t₂)
    (hn : normalizeRequirements t₁.data = normalizeRequirements t₂.data) :
    envVenvPath readText e₁ s cwd = envVenvPath readText e₂ s cwd := by
  have hci : contentIdentifier t₁ = contentIdentifier t₂ := by
    unfold contentIdentifier
    rw [hn]
  unfold envVenvPath
  rw [getRequirementsHash_eq_effective, getRequirementsHash_eq_effective,
    h₁, h₂]
  simp [hci]

/-- C2 witness: the claim's example scenario (`venv_path: .uv-toolbox`,
two environments both declaring `requirements: ruff`) instantiated
concretely. -/
theorem C2_equal_requirements_equal_venv_path_witness :
    envLint ∈ settingsTwoRuff.environments
    ∧ envFmt ∈ settingsTwoRuff.environments
    ∧ effectiveRequirementText readTextEmpty envLint = some "ruff"
    ∧ effectiveRequirementText readTextEmpty envFmt = some "ruff"
    ∧ envVenvPath readTextEmpty envLint settingsTwoRuff ⟨true, ["cwd"]⟩ =
        envVenvPath readTextEmpty envFmt settingsTwoRuff ⟨true, ["cwd"]⟩ :=
  ⟨by decide, by decide, rfl, rfl,
    C2_equal_requirements_equal_venv_path readTextEmpty settingsTwoRuff
      ⟨true, ["cwd"]⟩ envLint envFmt "ruff" "ruff" (by decide) (by decide)
      rfl rfl rfl⟩

/-- C3 counterexample: for a settings value with `config_file = None` and
a relative `venv_path`, the resolved base path depends on the process's
current working directory, so it is not anchored to any config file
directory; the claim's "for every Settings ... never the process's current
working directory" fails. -/
theorem C3_counterexample :
    resolvedVenvPath settingsNoConfigFile ⟨true, ["home"]⟩ ≠
      resolvedVenvPath settingsNoConfigFile ⟨true, ["tmp"]⟩ := by
  decide

/-- C3 (amended): when `config_file` is set, the resolved base path is
`venv_path` verbatim if absolute and `config_file.parent / venv_path` if
relative, independent of the current working directory; only when
`config_file` is `None` (outside normal CLI construction) does a relative
`venv_path` fall back to the current working directory. -/
theorem C3_resolved_base_path :
    (∀ (s : UvToolboxSettings) (cf : PyPath), s.config_file = some cf →
      ∀ cwd₁ cwd₂, resolvedVenvPath s cwd₁ = resolvedVenvPath s cwd₂)
    ∧ (∀ (s : UvToolboxSettings) (cwd : PyPath), s.venv_path.absolute = true →
        resolvedVenvPath s cwd = s.venv_path)
    ∧ (∀ (s : UvToolboxSettings) (cf : PyPath), s.config_file = some cf →
        s.venv_path.absolute = false →
        ∀ cwd, resolvedVenvPath s cwd = pathJoin (parentPath cf) s.venv_path)
    ∧ (∀ s : UvToolboxSettings, s.config_file = none →
        s.venv_path.absolute = false →
        ∀ cwd, resolvedVenvPath s cwd = pathJoin cwd s.venv_path) := by
  refine ⟨?_, ?_, ?_, ?_⟩
  · intro s cf hcf cwd₁ cwd₂
    unfold resolvedVenvPath
    rw [hcf]
  · intro s cwd habs
    unfold resolvedVenvPath
    rw [habs]
    rfl
  · intro s cf hcf habs cwd
    unfold resolvedVenvPath
    rw [hcf, habs]
    rfl
  · intro s hcf habs cwd
    unfold resolvedVenvPath
    rw [hcf, habs]
    rfl

/-- C3 witness: the amended behavior at a concrete settings value with a
config file and a relative `venv_path`. -/
theorem C3_resolved_base_path_witness :
    resolvedVenvPath settingsTwoRuff ⟨true, ["cwd"]⟩ =
      pathJoin (parentPath ⟨true, ["proj", "uv-toolbox.yaml"]⟩)
        ⟨false, [".uv-toolbox"]⟩ :=
  C3_resolved_base_path.2.2.1 settingsTwoRuff
    ⟨true, ["proj", "uv-toolbox.yaml"]⟩ rfl rfl ⟨true, ["cwd"]⟩

/-- C4: the upward walk checks `uv-toolbox.yaml`, `uv-toolbox.json`,
`uv-toolbox.toml`, then a valid `pyproject.toml` in that fixed order in
each directory and returns the first valid file immediately; if some
directory on the chain has a config and no directory strictly below it has
a `.git` entry, the walk succeeds (returning the config of the lowest
directory that has one); and the walk stops empty-handed at the first
directory containing `.git` when no config was found up to and including
that directory. -/
theorem C4_config_discovery_walk :
    (∀ d : DirFS,
      (entryExists d.yamlEntry = true →
        checkDirectoryForConfig d = some (candidatePath d "uv-toolbox.yaml"))
      ∧ (entryExists d.yamlEntry = false → entryExists d.jsonEntry = true →
          checkDirectoryForConfig d = some (candidatePath d "uv-toolbox.json"))
      ∧ (entryExists d.yamlEntry = false → entryExists d.jsonEntry = false →
          entryExists d.tomlEntry = true →
          checkDirectoryForConfig d = some (candidatePath d "uv-toolbox.toml"))
      ∧ (entryExists d.yamlEntry = false → entryExists d.jsonEntry = false →
          entryExists d.tomlEntry = false → entryExists d.pyprojectEntry = true →
          pyprojectHasUvToolboxConfig d.pyprojectEntry = true →
          checkDirectoryForConfig d = some (candidatePath d "pyproject.toml")))
    ∧ (∀ (pre : List DirFS) (d : DirFS) (post : List DirFS) (p : PyPath),
        (∀ d' ∈ pre, checkDirectoryForConfig d' = none ∧ d'.hasGit = false) →
        checkDirectoryForConfig d = some p →
        findConfigFile (pre ++ d :: post) = some p)
    ∧ (∀ (pre : List DirFS) (d : DirFS) (post : List DirFS),
        (∀ d' ∈ pre, d'.hasGit = false) →
        (checkDirectoryForConfig d).isSome = true →
        (findConfigFile (pre ++ d :: post)).isSome = true)
    ∧ (∀ (pre : List DirFS) (d : DirFS) (post : List DirFS),
        (∀ d' ∈ pre, checkDirectoryForConfig d' = none ∧ d'.hasGit = false) →
        checkDirectoryForConfig d = none → d.hasGit = true →
        findConfigFile (pre ++ d :: post) = none) := by
  refine ⟨?_, ?_, ?_, ?_⟩
  · intro d
    refine ⟨?_, ?_, ?_, ?_⟩
    · intro hy
      unfold checkDirectoryForConfig
      simp [hy]
    · intro hy hj
      unfold checkDirectoryForConfig
      simp [hy, hj]
    · intro hy hj ht
      unfold checkDirectoryForConfig
      simp [hy, hj, ht]
    · intro hy hj ht hpe hpok
      unfold checkDirectoryForConfig
      simp [hy, hj, ht, hpe, hpok]
  · intro pre
    induction pre with
    | nil =>
      intro d post p _ hc
      show findConfigFile (d :: post) = some p
      unfold findConfigFile
      rw [hc]
    | cons d' pre' ih =>
      intro d post p hpre hc
      have hd' := hpre d' (List.mem_cons_self d' pre')
      show findConfigFile (d' :: (pre' ++ d :: post)) = some p
      unfold findConfigFile
      rw [hd'.1, hd'.2]
      simp only [Bool.false_eq_true, if_false]
      exact ih d post p (fun x hx => hpre x (List.mem_cons_of_mem d' hx)) hc
  · intro pre
    induction pre with
    | nil =>
      intro d post _ hc
      show (findConfigFile (d :: post)).isSome = true
      unfold findConfigFile
      cases h : checkDirectoryForConfig d with
      | some p => rfl
      | none => rw [h] at hc; simp at hc
    | cons d' pre' ih =>
      intro d post hpre hc
      have hgit := hpre d' (List.mem_cons_self d' pre')
      show (findConfigFile (d' :: (pre' ++ d :: post))).isSome = true
      unfold findConfigFile
      cases h : checkDirectoryForConfig d' with
      | some p => rfl
      | none =>
        rw [hgit]
        simp only [Bool.false_eq_true, if_false]
        exact ih d post (fun x hx => hpre x (List.mem_cons_of_mem d' hx)) hc
  · intro pre
    induction pre with
    | nil =>
      intro d post _ hc hgit
      show findConfigFile (d :: post) = none
      unfold findConfigFile
      rw [hc, hgit]
      rfl
    | cons d' pre' ih =>
      intro d post hpre hc hgit
      have hd' := hpre d' (List.mem_cons_self d' pre')
      show findConfigFile (d' :: (pre' ++ d :: post)) = none
      unfold findConfigFile
      rw [hd'.1, hd'.2]
      simp only [Bool.false_eq_true, if_false]
      exact ih d post (fun x hx => hpre x (List.mem_cons_of_mem d' hx)) hc hgit

/-- C4 witness: a config-free directory below a directory holding
`uv-toolbox.yaml` finds that file; the same chain with an intervening
`.git`-only directory stops at the boundary and finds nothing. -/
theorem C4_config_discovery_walk_witness :
    findConfigFile [dirEmptyNoGit, dirWithYaml] =
      some (candidatePath dirWithYaml "uv-toolbox.yaml")
    ∧ findConfigFile [dirEmptyNoGit, dirGitOnly, dirWithYaml] = none := by
  constructor
  · exact C4_config_discovery_walk.2.1 [dirEmptyNoGit] dirWithYaml [] _
      (by intro d' hd'; simp only [List.mem_singleton] at hd'; subst hd';
          exact ⟨rfl, rfl⟩) rfl
  · exact C4_config_discovery_walk.2.2.2 [dirEmptyNoGit] dirGitOnly [dirWithYaml]
      (by intro d' hd'; simp only [List.mem_singleton] at hd'; subst hd';
          exact ⟨rfl, rfl⟩) rfl rfl

/-- C5 counterexample: the claim says a provided name is looked up as
given, but `env_name or self.default_environment` treats the provided
empty string as absent: with an environment actually named `""` present
(and no default), `select_environment('')` raises the
multiple-environments error instead of returning that environment. -/
theorem C5_counterexample :
    envEmptyName ∈ settingsEmptyName.environments
    ∧ envEmptyName.name = ""
    ∧ selectEnvironment settingsEmptyName (some "") =
        .error (.multipleEnvironments ["", "b"]) := by
  refine ⟨by decide, rfl, rfl⟩

/-- C5 (amended): for every provided non-empty name, `select_environment`
returns the first environment with that name or fails with the
environment-not-found error enumerating all names; a provided empty name
is treated exactly like an absent one; with no (truthy) name it falls back
to `default_environment` as if passed, and with no default it returns the
sole environment or fails with the multiple-environments error enumerating
all names.  It is a pure function of the settings value. -/
theorem C5_select_environment :
    (∀ (s : UvToolboxSettings) (n : String), n ≠ "" →
      selectEnvironment s (some n) =
        match s.environments.find? (fun e => e.name = n) with
        | some e => .ok e
        | none => .error (.environmentNotFound n (s.environments.map (·.name))))
    ∧ (∀ s : UvToolboxSettings, selectEnvironment s (some "") =
        selectEnvironment s none)
    ∧ (∀ (s : UvToolboxSettings) (d : String), s.default_environment = some d →
        selectEnvironment s none =
          match s.environments.find? (fun e => e.name = d) with
          | some e => .ok e
          | none => .error (.environmentNotFound d (s.environments.map (·.name))))
    ∧ (∀ s : UvToolboxSettings, s.default_environment = none →
        selectEnvironment s none =
          match s.environments with
          | [e] => .ok e
          | es => .error (.multipleEnvironments (es.map (·.name)))) := by
  refine ⟨?_, ?_, ?_, ?_⟩
  · intro s n hn
    unfold selectEnvironment
    have h : truthyStr (some n) = true := by simp [truthyStr, hn]
    rw [h]
    rfl
  · intro s
    unfold selectEnvironment
    rfl
  · intro s d hd
    unfold selectEnvironment
    rw [hd]
    rfl
  · intro s hd
    unfold selectEnvironment
    rw [hd]
    rfl

/-- C5 witness: the amended clauses at concrete settings values. -/
theorem C5_select_environment_witness :
    selectEnvironment settingsEmptyName (some "b") = .ok envNamedB
    ∧ selectEnvironment settingsEmptyName (some "c") =
        .error (.environmentNotFound "c" ["", "b"])
    ∧ selectEnvironment settingsTwoRuff none =
        .error (.multipleEnvironments ["lint", "fmt"]) := by
  refine ⟨?_, ?_, ?_⟩
  · rw [C5_select_environment.1 settingsEmptyName "b" (by decide)]
    rfl
  · rw [C5_select_environment.1 settingsEmptyName "c" (by decide)]
    rfl
  · rw [C5_select_environment.2.2.2 settingsTwoRuff rfl]
    rfl

/-- C6 counterexample: the dedicated candidate names are accepted on bare
`exists()`: a directory (not a regular file) named `uv-toolbox.yaml` is
returned as the config file, so the claim's "any candidate config path
that exists but is a directory ... is treated as not found and the search
continues" fails for the dedicated names. -/
theorem C6_counterexample :
    dirYamlIsDirectory.yamlEntry = FsEntry.directory
    ∧ checkDirectoryForConfig dirYamlIsDirectory =
        some (candidatePath dirYamlIsDirectory "uv-toolbox.yaml")
    ∧ findConfigFile [dirYamlIsDirectory] ≠ none := by
  refine ⟨rfl, rfl, by decide⟩

/-- C6 (amended): `pyproject.toml` is accepted only when it is a regular
file that parses and has a `tool` mapping containing a `uv-toolbox`
mapping; a `pyproject.toml` that fails to parse, lacks the section, has a
non-mapping `tool` key, or is a directory is treated as not found and the
search continues past it, yielding a not-found result (never a parse
error).  The directory-rather-than-file guard applies only to
`pyproject.toml`: the dedicated `uv-toolbox.*` names are accepted whenever
the path exists, even as a directory. -/
theorem C6_pyproject_gating :
    pyprojectHasUvToolboxConfig (.file none) = false
    ∧ (∀ doc : List (String × TomlVal), doc.lookup "tool" = none →
        pyprojectHasUvToolboxConfig (.file (some doc)) = false)
    ∧ (∀ (doc : List (String × TomlVal)) (sv : String),
        doc.lookup "tool" = some (.scalar sv) →
        pyprojectHasUvToolboxConfig (.file (some doc)) = false)
    ∧ pyprojectHasUvToolboxConfig .directory = false
    ∧ pyprojectHasUvToolboxConfig .absent = false
    ∧ (∀ (doc kvs ukvs : List (String × TomlVal)),
        doc.lookup "tool" = some (.table kvs) →
        kvs.lookup "uv-toolbox" = some (.table ukvs) →
        pyprojectHasUvToolboxConfig (.file (some doc)) = true)
    ∧ (∀ d : DirFS, entryExists d.yamlEntry = false →
        entryExists d.jsonEntry = false → entryExists d.tomlEntry = false →
        pyprojectHasUvToolboxConfig d.pyprojectEntry = false →
        checkDirectoryForConfig d = none)
    ∧ (∀ (d : DirFS) (rest : List DirFS), checkDirectoryForConfig d = none →
        d.hasGit = false → findConfigFile (d :: rest) = findConfigFile rest)
    ∧ (∀ dirs : List DirFS,
        (∀ d ∈ dirs, checkDirectoryForConfig d = none) →
        findConfigFile dirs = none) := by
  refine ⟨rfl, ?_, ?_, rfl, rfl, ?_, ?_, ?_, ?_⟩
  · intro doc h
    simp only [pyprojectHasUvToolboxConfig]
    rw [h]
  · intro doc sv h
    simp only [pyprojectHasUvToolboxConfig]
    rw [h]
  · intro doc kvs ukvs h1 h2
    simp only [pyprojectHasUvToolboxConfig, h1, h2]
  · intro d hy hj ht hp
    unfold checkDirectoryForConfig
    simp [hy, hj, ht, hp]
  · intro d rest hc hg
    simp only [findConfigFile, hc, hg, Bool.false_eq_true, if_false]
  · intro dirs h
    induction dirs with
    | nil => rfl
    | cons d rest ih =>
      unfold findConfigFile
      rw [h d (List.mem_cons_self d rest)]
      cases hg : d.hasGit with
      | true => simp
      | false =>
        simp only [Bool.false_eq_true, if_false]
        exact ih fun x hx => h x (List.mem_cons_of_mem d hx)

/-- C6 witness: the claim's example scenario — `uv-toolbox.yaml` absent
and `pyproject.toml` containing only `[tool.other]` yields a not-found
result (the search continues and ends empty), not a parse error. -/
theorem C6_pyproject_gating_witness :
    checkDirectoryForConfig dirPyprojectOtherTool = none
    ∧ findConfigFile [dirPyprojectOtherTool] = none := by
  constructor
  · exact C6_pyproject_gating.2.2.2.2.2.2.1 dirPyprojectOtherTool rfl rfl rfl rfl
  · exact C6_pyproject_gating.2.2.2.2.2.2.2.2 [dirPyprojectOtherTool]
      (by intro d hd; simp only [List.mem_singleton] at hd; subst hd;
          exact C6_pyproject_gating.2.2.2.2.2.2.1 dirPyprojectOtherTool rfl rfl rfl rfl)

/-- C7: `_verify_config_file` raises `ConfigFileNotFoundError` for a
missing override and `MissingConfigFileError` after a fruitless walk, and
settings.py imports both names from `uv_toolbox.errors`; but `errors.py`
defines neither class, so importing `uv_toolbox.settings` fails and
neither error kind can exist — the code contradicts its own imports and
the integration tests that expect these exceptions. -/
theorem C7_config_error_classes_missing :
    "ConfigFileNotFoundError" ∈ settingsErrorImports
    ∧ "MissingConfigFileError" ∈ settingsErrorImports
    ∧ "ConfigFileNotFoundError" ∉ errorsModuleClasses
    ∧ "MissingConfigFileError" ∉ errorsModuleClasses := by
  decide

/-- C8 counterexample: with inline requirements and a failing install
command, the temporary requirements file is written but `shutil.rmtree`
never runs (there is no `try`/`finally`), so cleanup is not guaranteed on
the error path. -/
theorem C8_counterexample :
    (installRequirements envLint "/tmp/t" true).tempPath =
        some "/tmp/t/requirements_lint.txt"
    ∧ (installRequirements envLint "/tmp/t" true).raised = true
    ∧ (installRequirements envLint "/tmp/t" true).tempRemoved = false :=
  ⟨rfl, rfl, rfl⟩

/-- C8 (amended): for an environment with inline requirements, the
requirement text is written to a temporary file, the install command is
invoked against that file with `--exact`, and the temporary directory is
removed exactly when the install command succeeds; when the command fails,
the exception propagates before `shutil.rmtree` and the temporary file is
left behind. -/
theorem C8_inline_install_lifecycle (env : UvToolboxEnvironment)
    (tempDir r : String) (runFails : Bool)
    (hf : env.requirements_file = none) (hr : env.requirements = some r) :
    (installRequirements env tempDir runFails).tempPath =
        some (tempDir ++ "/requirements_" ++ env.name ++ ".txt")
    ∧ (installRequirements env tempDir runFails).tempContent = some r
    ∧ (installRequirements env tempDir runFails).cmdArgs =
        some ["uv", "pip", "install", "-r",
          tempDir ++ "/requirements_" ++ env.name ++ ".txt", "--exact"]
    ∧ (installRequirements env tempDir runFails).raised = runFails
    ∧ ((installRequirements env tempDir runFails).tempRemoved = true ↔
        runFails = false) := by
  unfold installRequirements
  rw [hf, hr]
  refine ⟨rfl, rfl, rfl, rfl, ?_⟩
  cases runFails <;> simp

/-- C8 witness: the amended lifecycle at a concrete inline environment,
on the success path. -/
theorem C8_inline_install_lifecycle_witness :
    (installRequirements envLint "/tmp/t" false).tempPath =
        some "/tmp/t/requirements_lint.txt"
    ∧ (installRequirements envLint "/tmp/t" false).tempContent = some "ruff"
    ∧ (installRequirements envLint "/tmp/t" false).cmdArgs =
        some ["uv", "pip", "install", "-r", "/tmp/t/requirements_lint.txt",
          "--exact"]
    ∧ (installRequirements envLint "/tmp/t" false).raised = false
    ∧ ((installRequirements envLint "/tmp/t" false).tempRemoved = true ↔
        false = false) :=
  C8_inline_install_lifecycle envLint "/tmp/t" "ruff" false rfl rfl

/-- C9: the spec (and the shim generator, which reads `env.executables`)
require an `executables` field on every environment, but the
`UvToolboxEnvironment` model declares no such field — reading it fails, so
the code contradicts its own callers and tests. -/
theorem C9_executables_field_missing :
    "executables" ∈ shimGeneratorEnvironmentAttrs
    ∧ "executables" ∉ uvToolboxEnvironmentFields := by
  decide

/-- C10: the exactly-one-source validator tests truthiness, not presence:
an environment with `requirements=''` plus a `requirements_file` passes
validation (the empty string counts as unset), while one whose only source
is `requirements=''` fails it. -/
theorem C10_requirements_truthiness :
    (∀ f : PyPath, checkRequirements (some "") (some f) = true)
    ∧ checkRequirements (some "") none = false :=
  ⟨fun _ => rfl, rfl⟩

set_option maxRecDepth 100000 in
/-- C1 witness: the identifier of the requirement text `ruff`
(`acadbba99747`), with the hypotheses of the hex-character and determinism
conjuncts discharged at the concrete character `'a'` and at `"ruff"`. -/
theorem C1_content_identifier_witness :
    contentIdentifier "ruff" =
      (hexDigest (sha256 (utf8Encode (normalizeSpecification "ruff".data)))).take 12
    ∧ (contentIdentifier "ruff").length = 12
    ∧ (('0' ≤ 'a' ∧ 'a' ≤ '9') ∨ ('a' ≤ 'a' ∧ 'a' ≤ 'f'))
    ∧ contentIdentifier "ruff" = contentIdentifier "ruff" :=
  ⟨(C1_content_identifier "ruff").1, (C1_content_identifier "ruff").2.1,
   (C1_content_identifier "ruff").2.2.1 'a' (by decide),
   (C1_content_identifier "ruff").2.2.2 "ruff" rfl⟩
